import Mathlib

set_option maxRecDepth 40000

/-! Verification development for the FastFact MHTML parser
(`AI_Search_Engine/content_loader/fast_fact_parser.py`).

Python strings are modelled as `List Char` (abbreviated `Str`); searches
that return `-1` in Python return `Int` here.  The character classes
(`\s`, `\d`, `[A-Z]`, ...) are modelled on the ASCII range, which is the
range the parsed documents use.  The BeautifulSoup rendering stage is a
third-party library boundary: its output is modelled as an `RDoc`
(the rendered text produced by `soup.get_text`, plus the block-level
`p`/`h1`..`h6` tags with their stripped texts and the texts of `strong`
tags nested in them), which is exactly the data the boundary-detection
code of `extract_summary` consumes.  Calls into the Python standard
library that can raise (`email.header.decode_header`,
`quopri.decodestring` plus `bytes.decode`) are modelled as
`Str → Option Str` oracles, `none` meaning the call raised. -/

abbrev Str := List Char

/-- Python `\s` on the ASCII range: space, tab, newline, CR, VT, FF. -/
def isWs (c : Char) : Bool :=
  c = ' ' || c = '\t' || c = '\n' || c = '\r' || c = '\x0b' || c = '\x0c'

/-- Python `\d` (ASCII decimal digit). -/
def isDig (c : Char) : Bool := '0' ≤ c && c ≤ '9'

/-- ASCII `[A-Z]`. -/
def isUpperAscii (c : Char) : Bool := 'A' ≤ c && c ≤ 'Z'

/-- ASCII `[a-z]`. -/
def isLowerAscii (c : Char) : Bool := 'a' ≤ c && c ≤ 'z'

/-- ASCII `[a-zA-Z0-9#]`, the character class of the HTML-entity regex. -/
def isEntChar (c : Char) : Bool :=
  isLowerAscii c || isUpperAscii c || isDig c || c = '#'

/-- ASCII `[A-Z0-9]`, the character class of the broken-MIME-sequence regex. -/
def isUpperDig (c : Char) : Bool := isUpperAscii c || isDig c

/-- Python `str.lower` on the ASCII range. -/
def lowAscii (c : Char) : Char :=
  if isUpperAscii c then Char.ofNat (c.toNat + 32) else c

/-- Python `str.lower` applied to a whole string (ASCII model). -/
def pyLower (s : Str) : Str := s.map lowAscii

/-- Python `str.strip()`: drop whitespace from both ends. -/
def stripStr (s : Str) : Str :=
  ((s.dropWhile isWs).reverse.dropWhile isWs).reverse

/-- Python `hay.find(needle, start)`: smallest `i ≥ start` at which `needle`
occurs, else `-1`. -/
def findFrom (hay needle : Str) (start : Nat) : Int :=
  match ((List.range (hay.length + 1)).filter
      (fun i => decide (start ≤ i) && needle.isPrefixOf (hay.drop i))).head? with
  | some i => (i : Int)
  | none => -1

/-- Python `hay.find(needle)`. -/
def pyFind (hay needle : Str) : Int := findFrom hay needle 0

/-- Python `needle in hay`. -/
def containsStr (hay needle : Str) : Bool := pyFind hay needle ≠ -1

/-- Normalise one Python slice index to an offset into the string
(negative indices count from the end; the result is clamped to
`[0, len]`). -/
def pyIdx (len : Nat) (i : Int) : Nat :=
  if i < 0 then (len - (-i).toNat) else min i.toNat len

/-- Python `s[a:b]` (with clamping and negative-index handling). -/
def pySlice (s : Str) (a b : Int) : Str :=
  let a2 := pyIdx s.length a
  let b2 := pyIdx s.length b
  (s.drop a2).take (b2 - a2)

/-- Python `s[a:b]` for already-nonnegative indices. -/
def pySliceNat (s : Str) (a b : Nat) : Str := (s.drop a).take (b - a)

/-- First whitespace-separated token of a string (`s.split()[0]`, or `[]`
when `s.split()` is empty). -/
def firstToken (s : Str) : Str :=
  (s.dropWhile isWs).takeWhile (fun c => !isWs c)

/-- Numeric value of a decimal-digit string (Python `int`). -/
def digitsVal (d : Str) : Nat :=
  d.foldl (fun a c => a * 10 + (c.toNat - 48)) 0

/-- One rendered block-level tag (`p`, `h1` .. `h6`) of the parsed HTML:
its own `get_text()` and the `get_text()` of each `strong` tag nested in
it, in document order. -/
structure Tag where
  text : Str
  strongs : List Str
deriving DecidableEq

/-- The output of the BeautifulSoup stage of `extract_summary`: the
rendered text `soup.get_text('\n', strip=True)` after the
navigation-stripping passes, plus the block-level tags the structural
boundary scan iterates over. -/
structure RDoc where
  text : Str
  tags : List Tag
deriving DecidableEq

/-- The exact section-header strings the structural References scan
accepts (source lines 313 and 325). -/
def refHeads : List Str :=
  [ ("References".data), ("References:".data),
    ("REFERENCES".data), ("REFERENCES:".data) ]

/-- The lower-cased header strings of the Resources fallback (source
lines 388 and 406; the source list literally repeats the two entries). -/
def resHeads : List Str :=
  [ ("resources".data), ("resources:".data),
    ("resources".data), ("resources:".data) ]

/-- Navigation markers that disqualify a Resources candidate (source
lines 393-394). -/
def navTerms : List Str :=
  [ ("menu".data), ("nav".data), ("search".data),
    ("www.mypcnow.org".data), ("fusion-".data) ]

/-- Disclaimer phrase that disqualifies a textual References candidate
(source line 356). -/
def disclaimer : Str := ("consult other relevant and up-to-date experts".data)

/-- Whether a navigation marker occurs in the lower-cased 100-character
context window before `pos` (source lines 392-394, 410-412, 432-437). -/
def navBefore (text : Str) (pos : Nat) : Bool :=
  navTerms.any (fun t => containsStr (pyLower (pySliceNat text (pos - 100) pos)) t)

/-- Inner loop of the structural References scan over the `strong` tags
nested in one block tag (source lines 322-331). -/
def strongScanRef (text : Str) : List Str → Int
  | [] => -1
  | s :: rest =>
    let st := stripStr s
    if decide (st ∈ refHeads) && decide (pyFind text st ≠ -1) then pyFind text st
    else strongScanRef text rest

/-- Method 1 of the endpoint detection: scan the block-level tags (and
their nested `strong` tags) for an exact References header; the boundary
is `text.find` of the matched header string (source lines 310-333). -/
def structEndRef (text : Str) : List Tag → Int
  | [] => -1
  | t :: rest =>
    let tt := stripStr t.text
    if decide (tt ∈ refHeads) && decide (pyFind text tt ≠ -1) then pyFind text tt
    else
      let sp := strongScanRef text t.strongs
      if sp ≠ -1 then sp else structEndRef text rest

/-- All positions at which `references` occurs in the lower-cased
rendered text (source lines 340-347). -/
def refsPositions (text : Str) : List Nat :=
  (List.range (text.length + 1)).filter
    (fun i => ("references".data).isPrefixOf ((pyLower text).drop i))

/-- Whether the textual References tier accepts the occurrence at `pos`
as a section header (the filter body of source lines 350-374: the
disclaimer check, the preceding-character check, the `word_after`
digit check, and the header-shape check). -/
def tier2Accept (text : Str) (pos : Nat) : Bool :=
  let cb := pySliceNat text (pos - 50) pos
  let ca := pySliceNat text pos (min text.length (pos + 50))
  let wa := firstToken ca
  !containsStr cb disclaimer &&
  (decide (cb = []) || decide (cb.getLast? = some '\n') || decide (cb.getLast? = some ' ') ||
    decide (cb.getLast? = some '.') || decide (cb.getLast? = some ':') ||
    decide (cb.getLast? = some ';')) &&
  (decide (wa = []) || !wa.all isDig) &&
  (decide (text[pos]? = some 'R') &&
    (decide (text.length ≤ pos + 10) ||
      decide (text[pos + 10]? = some '\n') || decide (text[pos + 10]? = some ' ') ||
      decide (text[pos + 10]? = some ':') ||
      ("References:".data).isPrefixOf ca || ("References\n".data).isPrefixOf ca))

/-- Method 2 of the endpoint detection: the first accepted textual
References occurrence, else `-1` (source lines 336-379). -/
def tier2End (text : Str) : Int :=
  match (refsPositions text).find? (fun p => tier2Accept text p) with
  | some p => (p : Int)
  | none => -1

/-- Structural Resources fallback over block-level tags (source lines
386-398). -/
def resStructEnd (text : Str) : List Tag → Int
  | [] => -1
  | t :: rest =>
    let tt := stripStr t.text
    if decide (pyLower tt ∈ resHeads) && decide (pyFind text tt ≠ -1) &&
        !navBefore text (pyFind text tt).toNat then pyFind text tt
    else resStructEnd text rest

/-- Inner loop of the nested-`strong` Resources fallback (source lines
403-416). -/
def strongScanRes (text : Str) : List Str → Int
  | [] => -1
  | s :: rest =>
    let st := stripStr s
    if decide (pyLower st ∈ resHeads) && decide (pyFind text st ≠ -1) &&
        !navBefore text (pyFind text st).toNat then pyFind text st
    else strongScanRes text rest

/-- Nested-`strong` Resources fallback over block-level tags (source
lines 401-418). -/
def resNestedEnd (text : Str) : List Tag → Int
  | [] => -1
  | t :: rest =>
    let sp := strongScanRes text t.strongs
    if sp ≠ -1 then sp else resNestedEnd text rest

/-- All positions at which `resources` occurs in the lower-cased
rendered text (source lines 422-429). -/
def resPositions (text : Str) : List Nat :=
  (List.range (text.length + 1)).filter
    (fun i => ("resources".data).isPrefixOf ((pyLower text).drop i))

/-- Whether the textual Resources tier accepts the occurrence at `pos`
(source lines 431-448; note the source reuses the `pos + 10` offset of
the References branch). -/
def resTextAccept (text : Str) (pos : Nat) : Bool :=
  let ca := pySliceNat text pos (min text.length (pos + 50))
  !navBefore text pos &&
  (decide (text[pos]? = some 'R') &&
    (decide (text.length ≤ pos + 10) ||
      decide (text[pos + 10]? = some '\n') || decide (text[pos + 10]? = some ' ') ||
      decide (text[pos + 10]? = some ':') ||
      ("Resources:".data).isPrefixOf ca || ("Resources\n".data).isPrefixOf ca))

/-- Textual Resources fallback (source lines 420-448). -/
def resTextEnd (text : Str) : Int :=
  match (resPositions text).find? (fun p => resTextAccept text p) with
  | some p => (p : Int)
  | none => -1

/-- The whole Resources tier: structural, then nested `strong`, then
textual (source lines 381-448). -/
def resourcesEnd (d : RDoc) : Int :=
  let r1 := resStructEnd d.text d.tags
  if r1 ≠ -1 then r1 else
  let r2 := resNestedEnd d.text d.tags
  if r2 ≠ -1 then r2 else resTextEnd d.text

/-- The tiered endpoint detection of `extract_summary`: structural
References, then textual References, then the Resources tier (source
lines 305-448). -/
def detectEnd (d : RDoc) : Int :=
  let e1 := structEndRef d.text d.tags
  if e1 ≠ -1 then e1 else
  let e2 := tier2End d.text
  if e2 ≠ -1 then e2 else resourcesEnd d

/-- Left-to-right, non-overlapping substitution scanner: the semantics of
Python `re.sub` for the unanchored patterns used by the parser.  At each
position the matcher `m` is tried on the remaining suffix; on a match
`(n, r)` the next `n` characters are replaced by `r` and scanning resumes
after them.  A zero-length match is treated as no match (none of the
modelled patterns can match zero characters). -/
def scanSubGo (m : Str → Option (Nat × Str)) : Nat → Str → Str
  | _, [] => []
  | 0, s => s
  | fuel + 1, c :: cs =>
    match m (c :: cs) with
    | some (n, r) =>
      if n = 0 then c :: scanSubGo m fuel cs
      else r ++ scanSubGo m fuel (cs.drop (n - 1))
    | none => c :: scanSubGo m fuel cs

/-- The scanner, with the string's length as fuel (one character is
consumed per step at minimum, so the fuel never runs out). -/
def scanSub (m : Str → Option (Nat × Str)) (s : Str) : Str :=
  scanSubGo m s.length s

/-- Matcher for a literal pattern: replace `pat` by `rep`. -/
def litM (pat rep : Str) : Str → Option (Nat × Str) := fun s =>
  if pat ≠ [] && pat.isPrefixOf s then some (pat.length, rep) else none

/-- Matcher for `\n+` → a single space (source line 469). -/
def mNlRun (s : Str) : Option (Nat × Str) :=
  match s with
  | '\n' :: _ => some ((s.takeWhile (fun c => c = '\n')).length, [' '])
  | _ => none

/-- Matcher for `\s+` → a single space (source lines 470 and 529). -/
def mWsRun (s : Str) : Option (Nat × Str) :=
  match s with
  | c :: _ => if isWs c then some ((s.takeWhile isWs).length, [' ']) else none
  | [] => none

/-- Matcher for `=\s*\n\s*` → nothing (source line 473): an `=` whose
following whitespace run contains a newline; the greedy trailing `\s*`
consumes the whole run. -/
def mEqWsNlWs (s : Str) : Option (Nat × Str) :=
  match s with
  | '=' :: t =>
    let w := t.takeWhile isWs
    if '\n' ∈ w then some (1 + w.length, []) else none
  | _ => none

/-- Matcher for `=\s*$` → nothing (source lines 474, 503 and 532): an `=`
followed only by whitespace up to the end of the string. -/
def mEqWsEnd (s : Str) : Option (Nat × Str) :=
  match s with
  | '=' :: t => if t.all isWs then some (s.length, []) else none
  | _ => none

/-- Matcher for `=\s*\n` → nothing (source lines 504 and 533): the match
ends at the last newline of the whitespace run after the `=` (the greedy
`\s*` backtracks to leave a final `\n` for the literal), so it consumes
the run minus its part after the last newline. -/
def mEqWsNl (s : Str) : Option (Nat × Str) :=
  match s with
  | '=' :: t =>
    let w := t.takeWhile isWs
    if '\n' ∈ w then
      some (1 + (w.length - (w.reverse.takeWhile (fun c => c ≠ '\n')).length), [])
    else none
  | _ => none

/-- Matcher for `=\s*` → nothing (source lines 505 and 534): an `=` plus
its whole following whitespace run. -/
def mEqWs (s : Str) : Option (Nat × Str) :=
  match s with
  | '=' :: t => some (1 + (t.takeWhile isWs).length, [])
  | _ => none

/-- Matcher for `&nb=\s*sp;` → a single space (source line 502). -/
def mNbSp (s : Str) : Option (Nat × Str) :=
  if ("&nb=".data).isPrefixOf s then
    let t := s.drop 4
    let w := t.takeWhile isWs
    if ("sp;".data).isPrefixOf (t.drop w.length) then
      some (4 + w.length + 3, [' '])
    else none
  else none

/-- The navigation words of source line 521, in the alternation order of
the pattern `(Home|About|Contact|Privacy|Terms|Login|Register|Search)`. -/
def navWords : List Str :=
  [ ("home".data), ("about".data), ("contact".data), ("privacy".data),
    ("terms".data), ("login".data), ("register".data), ("search".data) ]

/-- Matcher for the navigation-phrase pattern of source line 521
(case-insensitive; the trailing lazy `.*?` matches nothing, so each
occurrence of a word is simply deleted). -/
def mNav (s : Str) : Option (Nat × Str) :=
  navWords.findSome? (fun w =>
    if w.isPrefixOf (pyLower (s.take w.length)) then some (w.length, ([] : Str))
    else none)

/-- Matcher for the broken-MIME HTML-tag pattern `<=\s*\n\s*[^>]*>` of
source line 524. -/
def mBrokenTag (s : Str) : Option (Nat × Str) :=
  match s with
  | '<' :: '=' :: t =>
    let w := t.takeWhile isWs
    if '\n' ∈ w then
      let r := t.drop w.length
      let ng := r.takeWhile (fun c => c ≠ '>')
      if (r.drop ng.length).head? = some '>' then
        some (2 + w.length + ng.length + 1, [])
      else none
    else none
  | _ => none

/-- Matcher for the HTML-tag pattern `<[^>]+>` of source line 525. -/
def mTag (s : Str) : Option (Nat × Str) :=
  match s with
  | '<' :: t =>
    let ng := t.takeWhile (fun c => c ≠ '>')
    if ng ≠ [] && (t.drop ng.length).head? = some '>' then
      some (1 + ng.length + 1, [])
    else none
  | _ => none

/-- Matcher for the HTML-entity pattern `&[a-zA-Z0-9#]+;` of source
line 526. -/
def mEntity (s : Str) : Option (Nat × Str) :=
  match s with
  | '&' :: t =>
    let run := t.takeWhile isEntChar
    if run ≠ [] && (t.drop run.length).head? = some ';' then
      some (1 + run.length + 1, [])
    else none
  | _ => none

/-- Matcher for `\s+([.!?])\s*$` → the punctuation character (source
line 537): whitespace, a sentence ender, then only whitespace to the end
of the string; the whole suffix is consumed. -/
def mSentEnd (s : Str) : Option (Nat × Str) :=
  let w := s.takeWhile isWs
  if w = [] then none
  else match s.drop w.length with
    | c :: rest =>
      if (c = '.' || c = '!' || c = '?') && rest.all isWs then
        some (s.length, [c])
      else none
    | [] => none

/-- Matcher for `\s+([.!?])\s+` → the punctuation character plus one
space (source line 538). -/
def mSentMid (s : Str) : Option (Nat × Str) :=
  let w := s.takeWhile isWs
  if w = [] then none
  else match s.drop w.length with
    | c :: rest =>
      if c = '.' || c = '!' || c = '?' then
        let w2 := rest.takeWhile isWs
        if w2 ≠ [] then some (w.length + 1 + w2.length, [c, ' ']) else none
      else none
    | [] => none

/-- Matcher for `\s+=\s+` → a single space (source line 541). -/
def mWsEqWs (s : Str) : Option (Nat × Str) :=
  let w := s.takeWhile isWs
  if w = [] then none
  else match s.drop w.length with
    | '=' :: rest =>
      let w2 := rest.takeWhile isWs
      if w2 ≠ [] then some (w.length + 1 + w2.length, [' ']) else none
    | _ => none

/-- Matcher for `=\s*([A-Z0-9]{2})` → the two captured characters
(source line 542). -/
def mEqCap2 (s : Str) : Option (Nat × Str) :=
  match s with
  | '=' :: t =>
    let w := t.takeWhile isWs
    match t.drop w.length with
    | c1 :: c2 :: _ =>
      if isUpperDig c1 && isUpperDig c2 then
        some (1 + w.length + 2, [c1, c2])
      else none
    | _ => none
  | _ => none

/-- Length of the leading-date match for the date-removal patterns of
source lines 516-518.  `mode 0` is `^[A-Z][a-z]+ \d{1,2}, \d{4}\s*`,
`mode 1` is the variant without the comma, `mode 2` the variant with an
optional comma.  The digit-run condition reflects regex backtracking: a
run of three or more digits can never satisfy `\d{1,2}` followed by the
separator. -/
def dateLen (mode : Nat) (s : Str) : Option Nat :=
  match s with
  | c :: t =>
    if isUpperAscii c then
      let mo := t.takeWhile isLowerAscii
      if mo ≠ [] then
        match t.drop mo.length with
        | ' ' :: r2 =>
          let ds := r2.takeWhile isDig
          if ds.length = 1 || ds.length = 2 then
            let sep : Option (Nat × Str) :=
              match mode, r2.drop ds.length with
              | 0, ',' :: ' ' :: r4 => some (2, r4)
              | 1, ' ' :: r4 => some (1, r4)
              | 2, ',' :: ' ' :: r4 => some (2, r4)
              | 2, ' ' :: r4 => some (1, r4)
              | _, _ => none
            match sep with
            | some (k, r4) =>
              if (r4.take 4).length = 4 && (r4.take 4).all isDig then
                some (1 + mo.length + 1 + ds.length + k + 4 +
                  ((r4.drop 4).takeWhile isWs).length)
              else none
            | none => none
          else none
        | _ => none
      else none
    else none
  | [] => none

/-- One anchored date-removal pass (source lines 516-518): the `^`
anchor means `re.sub` can only replace one leading occurrence. -/
def dateStrip (mode : Nat) (s : Str) : Str :=
  match dateLen mode s with
  | some n => s.drop n
  | none => s

/-- The cleanup chain applied to the sliced summary span: source lines
466 (the initial `.strip()`) through 544, in source order. -/
def cleanupSummary (s0 : Str) : Str :=
  let s := stripStr s0
  let s := scanSub mNlRun s
  let s := scanSub mWsRun s
  let s := scanSub mEqWsNlWs s
  let s := scanSub mEqWsEnd s
  let s := scanSub (litM ("=E2=80=9C".data) ("\"".data)) s
  let s := scanSub (litM ("=E2=80=9D".data) ("\"".data)) s
  let s := scanSub (litM ("=E2=80=99".data) ("'".data)) s
  let s := scanSub (litM ("=E2=80=98".data) ("'".data)) s
  let s := scanSub (litM ("=E2=80=93".data) ("–".data)) s
  let s := scanSub (litM ("=E2=80=94".data) ("—".data)) s
  let s := scanSub (litM ("=E2=80=A6".data) ("…".data)) s
  let s := scanSub (litM ("=3D".data) ("=".data)) s
  let s := scanSub (litM ("=20".data) (" ".data)) s
  let s := scanSub (litM ("=2E".data) (".".data)) s
  let s := scanSub (litM ("=2C".data) (",".data)) s
  let s := scanSub (litM ("=27".data) ("'".data)) s
  let s := scanSub (litM ("=22".data) ("\"".data)) s
  let s := scanSub (litM ("=28".data) ("(".data)) s
  let s := scanSub (litM ("=29".data) (")".data)) s
  let s := scanSub (litM ("=3A".data) (":".data)) s
  let s := scanSub (litM ("=3B".data) (";".data)) s
  let s := scanSub (litM ("=21".data) ("!".data)) s
  let s := scanSub (litM ("=3F".data) ("?".data)) s
  let s := scanSub (litM ("=C2=A0".data) (" ".data)) s
  let s := scanSub mNbSp s
  let s := scanSub mEqWsEnd s
  let s := scanSub mEqWsNl s
  let s := scanSub mEqWs s
  let s := scanSub (litM ("&nbsp;".data) (" ".data)) s
  let s := scanSub (litM ("&amp;".data) ("&".data)) s
  let s := scanSub (litM ("&lt;".data) ("<".data)) s
  let s := scanSub (litM ("&gt;".data) (">".data)) s
  let s := scanSub (litM ("&quot;".data) ("\"".data)) s
  let s := scanSub (litM ("&#39;".data) ("'".data)) s
  let s := dateStrip 0 s
  let s := dateStrip 1 s
  let s := dateStrip 2 s
  let s := scanSub mNav s
  let s := scanSub mBrokenTag s
  let s := scanSub mTag s
  let s := scanSub mEntity s
  let s := stripStr (scanSub mWsRun s)
  let s := scanSub mEqWsEnd s
  let s := scanSub mEqWsNl s
  let s := scanSub mEqWs s
  let s := scanSub mSentEnd s
  let s := scanSub mSentMid s
  let s := scanSub mWsEqWs s
  let s := scanSub mEqCap2 s
  stripStr s

/-- The start marker of the summary span (source line 453). -/
def pubMarker : Str := ("Published On:".data)

/-- The MIME multipart boundary marker (source line 460). -/
def mimeMarker : Str := ("------MultipartBoundary".data)

/-- Position of the newline after the `Published On:` occurrence, the
effective start of the summary span (source line 457). -/
def afterPublished (text : Str) : Int :=
  findFrom text ("\n".data) (pyFind text pubMarker).toNat

/-- Position of the first MIME boundary marker in the rendered text
(source line 460). -/
def mimePos (text : Str) : Int := pyFind text mimeMarker

/-- The MIME-boundary override of the detected endpoint (source lines
460-464). -/
def effectiveEnd (text : Str) (e : Int) : Int :=
  if mimePos text ≠ -1 ∧ mimePos text < e then mimePos text else e

/-- The sentinel returned when no valid summary span is found. -/
def sentinel : Str := ("Summary not available".data)

/-- The boundary detection, slicing and cleanup of `extract_summary`
applied to the rendered document (source lines 301-548). -/
def extractSummaryR (d : RDoc) : Str :=
  let text := d.text
  let e := detectEnd d
  let pub := pyFind text pubMarker
  if pub ≠ -1 ∧ e ≠ -1 ∧ pub < e then
    cleanupSummary (pySlice text (afterPublished text) (effectiveEnd text e))
  else sentinel

/-- The HTML-part capture of source line 248: the regex
`Content-Type: text/html.*?(?=Content-Type:|$)` (case-insensitive,
DOTALL) captures from the first `Content-Type: text/html` up to the
next `Content-Type:` header, or to the end of the document; `$` (no
MULTILINE) also matches just before a final newline, so a single
trailing newline is excluded from the captured part. -/
def findHtmlPart (content : Str) : Option Str :=
  let lc := pyLower content
  let st := pyFind lc ("content-type: text/html".data)
  if st = -1 then none
  else
    let e := findFrom lc ("content-type:".data) (st.toNat + 23)
    let en : Int :=
      if e ≠ -1 then e
      else if content.getLast? = some '\n' then ((content.length - 1 : Nat) : Int)
      else (content.length : Int)
    some (pySlice content st en)

/-- The MIME-header trimming of source lines 257-265, as written: the
Python expression `find('<!DOCTYPE') or find('<html') or find('<body')`
chains the *truthiness* of the find results (`0` is falsy, `-1` is
truthy), so when `<!DOCTYPE` is absent the result is `-1` and the code
falls straight through to `find('<')`.  Returns `none` when the part is
discarded (`Summary not available`). -/
def trimHtml (part : Str) : Option Str :=
  let a := pyFind part ("<!DOCTYPE".data)
  let b := pyFind part ("<html".data)
  let c := pyFind part ("<body".data)
  let h0 : Int := if a ≠ 0 then a else if b ≠ 0 then b else c
  let h1 : Int := if h0 = -1 then pyFind part ("<".data) else h0
  if h1 ≠ -1 then some (pySlice part h1 (part.length : Int)) else none

/-- Modelled from the claim and spec §4.2 wording: trim by searching for
the first HTML root indicator in the order `<!DOCTYPE`, then `<html`,
then `<body`, and only if none of those is found, the first `<`;
discard the part if nothing is found.  Kept separate from `trimHtml`
(the code as written) so the two can be compared. -/
def trimHtmlClaimed (part : Str) : Option Str :=
  let a := pyFind part ("<!DOCTYPE".data)
  let b := pyFind part ("<html".data)
  let c := pyFind part ("<body".data)
  let h0 : Int :=
    if a ≠ -1 then a else if b ≠ -1 then b
    else if c ≠ -1 then c else pyFind part ("<".data)
  if h0 ≠ -1 then some (pySlice part h0 (part.length : Int)) else none

/-- `extract_summary` end to end (source lines 244-548): locate the HTML
part, trim its MIME headers, render it (the BeautifulSoup stage, taken
as an oracle `render`), then detect boundaries, slice and clean up. -/
def extract_summary (render : Str → RDoc) (content : Str) : Str :=
  match findHtmlPart content with
  | none => sentinel
  | some part =>
    match trimHtml part with
    | none => sentinel
    | some h => extractSummaryR (render h)

/-- `decode_mime_string` (source lines 74-107).  The three standard-library
decoding routines are oracles: `hd` models the `email.header.decode_header`
loop of lines 81-91 (`none` meaning it raised, caught at line 92), `qs`
models `quopri.decodestring(...).decode('utf-8')` of line 100 (strict, can
raise), `ql` models `quopri.decodestring(...).decode('utf-8', 'ignore')` of
line 104 (`decodestring` itself can still raise on non-ASCII input).  A
raise in the second or third strategy is caught by the outer handler of
line 106, which returns the input unchanged. -/
def decode_mime_string (hd qs ql : Str → Option Str) (text : Str) : Str :=
  let step1 : Option Str :=
    if containsStr text ("=?utf-8?Q?".data) then hd text else none
  match step1 with
  | some r => r
  | none =>
    if ("=?utf-8?Q?".data).isPrefixOf text ∧ ("?=".data).isSuffixOf text then
      match qs (pySlice text 10 (-2)) with
      | some r => r
      | none => text
    else
      match ql text with
      | some r => r
      | none => text

/-- Capture of `\s*(.+?)\s+Date:` applied to the text right after a
`Subject:` occurrence (DOTALL, so `.` also matches newlines): the greedy
leading `\s*` is tried longest first, the lazy `(.+?)` shortest first,
and the `\s+` before the literal must be a maximal whitespace run
(`D` is not whitespace). -/
def subjectTailMatch (u : Str) : Option Str :=
  let wmax := (u.takeWhile isWs).length
  (List.range (wmax + 1)).findSome? (fun k =>
    let v := u.drop (wmax - k)
    (List.range v.length).findSome? (fun e1 =>
      let mid := v.take (e1 + 1)
      let rest := v.drop (e1 + 1)
      let r := rest.takeWhile isWs
      if r ≠ [] ∧ ("Date:".data).isPrefixOf (rest.drop r.length) then some mid
      else none))

/-- `re.search(r'Subject:\s*(.+?)\s+Date:', content, re.DOTALL)` (source
lines 54 and 156): the capture at the leftmost `Subject:` occurrence that
has a successful continuation, else `none`. -/
def subjectDateSearch (s : Str) : Option Str :=
  (List.range (s.length + 1)).findSome? (fun i =>
    if ("Subject:".data).isPrefixOf (s.drop i) then subjectTailMatch (s.drop (i + 8))
    else none)

/-- Length of the leading `^FF #\d+\s*` match of source line 66. -/
def ffTagLen (s : Str) : Option Nat :=
  if ("FF #".data).isPrefixOf s then
    let ds := (s.drop 4).takeWhile isDig
    if ds ≠ [] then
      some (4 + ds.length + ((s.drop (4 + ds.length)).takeWhile isWs).length)
    else none
  else none

/-- The anchored `^FF #\d+\s*` removal of source line 66. -/
def dropFFTag (s : Str) : Str :=
  match ffTagLen s with
  | some n => s.drop n
  | none => s

/-- Matcher for the trailing-site-name pattern
`\s*\|\s*Palliative Care Network of Wisconsin\s*$` of source line 69. -/
def mSiteTail (s : Str) : Option (Nat × Str) :=
  let w1 := s.takeWhile isWs
  match s.drop w1.length with
  | '|' :: r =>
    let w2 := r.takeWhile isWs
    if ("Palliative Care Network of Wisconsin".data).isPrefixOf (r.drop w2.length) ∧
        ((r.drop w2.length).drop 36).all isWs then
      some (s.length, [])
    else none
  | _ => none

/-- `extract_title` (source lines 52-72): the capture between `Subject:`
and `Date:`, MIME-decoded and cleaned, or the `Unknown Title` sentinel
when the header pattern does not match. -/
def extract_title (hd qs ql : Str → Option Str) (content : Str) : Str :=
  match subjectDateSearch content with
  | some cap =>
    let t := stripStr cap
    let t := decode_mime_string hd qs ql t
    let t := scanSub mEqWsNlWs t
    let t := scanSub mEqWsEnd t
    let t := dropFFTag t
    let t := scanSub mSiteTail t
    stripStr t
  | none => ("Unknown Title".data)

/-- Match of `FF\s*#\s*(\d+)` (IGNORECASE) at position `i`. -/
def tryFFAt (s : Str) (i : Nat) : Option Str :=
  match s.drop i with
  | a :: b :: r =>
    if lowAscii a = 'f' ∧ lowAscii b = 'f' then
      let w1 := r.takeWhile isWs
      match r.drop w1.length with
      | '#' :: r2 =>
        let w2 := r2.takeWhile isWs
        let ds := (r2.drop w2.length).takeWhile isDig
        if ds ≠ [] then some ds else none
      | _ => none
    else none
  | _ => none

/-- `re.search(r'FF\s*#\s*(\d+)', s, re.IGNORECASE)` (source lines 122
and 163): the capture of the leftmost match. -/
def ffSearch (s : Str) : Option Str :=
  (List.range (s.length + 1)).findSome? (tryFFAt s)

/-- Match of `Fast Fact Number:\s*(\d+)` at position `i` (source lines
129 and 148). -/
def ffnLabelAt (s : Str) (i : Nat) : Option Str :=
  if ("Fast Fact Number:".data).isPrefixOf (s.drop i) then
    let r := (s.drop i).drop 17
    let w := r.takeWhile isWs
    let ds := (r.drop w.length).takeWhile isDig
    if ds ≠ [] then some ds else none
  else none

/-- `re.search(r'Fast Fact Number:\s*(\d+)', s)`. -/
def ffnSearch (s : Str) : Option Str :=
  (List.range (s.length + 1)).findSome? (ffnLabelAt s)

/-- Match of the soft-line-break variant `Fast Fact Number:=\s*\n\s*(\d+)`
at position `i` (source line 139): the whitespace run after `:=` must
contain a newline, and the digits follow the whole run. -/
def ffnEncAt (s : Str) (i : Nat) : Option Str :=
  if ("Fast Fact Number:=".data).isPrefixOf (s.drop i) then
    let r := (s.drop i).drop 18
    let w := r.takeWhile isWs
    if '\n' ∈ w then
      let ds := (r.drop w.length).takeWhile isDig
      if ds ≠ [] then some ds else none
    else none
  else none

/-- `re.search(r'Fast Fact Number:=\s*\n\s*(\d+)', s)`. -/
def ffnEncSearch (s : Str) : Option Str :=
  (List.range (s.length + 1)).findSome? (ffnEncAt s)

/-- Match of `fast-fact.*?(\d+)` (IGNORECASE, no DOTALL: the lazy gap may
not cross a newline) at position `i` (source line 169). -/
def fastFactUrlAt (s : Str) (i : Nat) : Option Str :=
  if ("fast-fact".data).isPrefixOf ((pyLower s).drop i) then
    let r := s.drop (i + 9)
    let gap := r.takeWhile (fun c => !isDig c && c ≠ '\n')
    match r.drop gap.length with
    | c :: _ =>
      if isDig c then some ((r.drop gap.length).takeWhile isDig) else none
    | [] => none
  else none

/-- `re.search(r'fast-fact.*?(\d+)', s, re.IGNORECASE)`. -/
def fastFactUrlSearch (s : Str) : Option Str :=
  (List.range (s.length + 1)).findSome? (fastFactUrlAt s)

/-- Match of `Fast Fact\s*#\s*(\d+)` (IGNORECASE) at position `i`
(source line 175). -/
def fastFactHashAt (s : Str) (i : Nat) : Option Str :=
  if ("fast fact".data).isPrefixOf ((pyLower s).drop i) then
    let r := s.drop (i + 9)
    let w1 := r.takeWhile isWs
    match r.drop w1.length with
    | '#' :: r2 =>
      let w2 := r2.takeWhile isWs
      let ds := (r2.drop w2.length).takeWhile isDig
      if ds ≠ [] then some ds else none
    | _ => none
  else none

/-- `re.search(r'Fast Fact\s*#\s*(\d+)', s, re.IGNORECASE)`. -/
def fastFactHashSearch (s : Str) : Option Str :=
  (List.range (s.length + 1)).findSome? (fastFactHashAt s)

/-- Match of `(?:FF\s*#|Fast Fact\s*#?)\s*(\d+)` (IGNORECASE) at position
`i` (source line 183); the two alternation branches cannot both start at
one position (their second characters differ). -/
def m6At (s : Str) (i : Nat) : Option Str :=
  let ls := pyLower s
  let b1 : Option Str :=
    if ("ff".data).isPrefixOf (ls.drop i) then
      let r := s.drop (i + 2)
      let w1 := r.takeWhile isWs
      match r.drop w1.length with
      | '#' :: r2 =>
        let w2 := r2.takeWhile isWs
        let ds := (r2.drop w2.length).takeWhile isDig
        if ds ≠ [] then some ds else none
      | _ => none
    else none
  match b1 with
  | some ds => some ds
  | none =>
    if ("fast fact".data).isPrefixOf (ls.drop i) then
      let r := s.drop (i + 9)
      let w1 := r.takeWhile isWs
      match r.drop w1.length with
      | '#' :: rr =>
        let w2 := rr.takeWhile isWs
        let ds := (rr.drop w2.length).takeWhile isDig
        if ds ≠ [] then some ds else none
      | rr =>
        let ds := rr.takeWhile isDig
        if ds ≠ [] then some ds else none
    else none

/-- First capture of `re.findall(r'(?:FF\s*#|Fast Fact\s*#?)\s*(\d+)', s,
re.IGNORECASE)` (the source only uses element `[0]`). -/
def m6Search (s : Str) : Option Str :=
  (List.range (s.length + 1)).findSome? (m6At s)

/-- Match of `(?:Fact|FF)\s*#?\s*(\d{1,3})` (IGNORECASE) at position `i`
(source line 193); the capture takes at most three digits. -/
def m7At (s : Str) (i : Nat) : Option Str :=
  let ls := pyLower s
  let lit : Option Nat :=
    if ("fact".data).isPrefixOf (ls.drop i) then some 4
    else if ("ff".data).isPrefixOf (ls.drop i) then some 2
    else none
  match lit with
  | some n =>
    let r := s.drop (i + n)
    let w1 := r.takeWhile isWs
    match r.drop w1.length with
    | '#' :: rr =>
      let w2 := rr.takeWhile isWs
      let ds := (rr.drop w2.length).takeWhile isDig
      if ds ≠ [] then some (ds.take 3) else none
    | rr =>
      let ds := rr.takeWhile isDig
      if ds ≠ [] then some (ds.take 3) else none
  | none => none

/-- First capture of `re.findall(r'(?:Fact|FF)\s*#?\s*(\d{1,3})', s,
re.IGNORECASE)`. -/
def m7Search (s : Str) : Option Str :=
  (List.range (s.length + 1)).findSome? (m7At s)

/-- Match of `content=3D"[^"]*?(\d{1,3})[^"]*?"` at position `i` (source
line 199): the lazy `[^"]*?` runs to the first digit inside the quoted
segment, the capture takes at most three digits, and a closing quote must
exist.  Returns the capture and the position just after the match. -/
def metaAt (s : Str) (i : Nat) : Option (Str × Nat) :=
  if ("content=3D\"".data).isPrefixOf (s.drop i) then
    let r := (s.drop i).drop 11
    let seg := r.takeWhile (fun c => c ≠ '"')
    let pre := seg.takeWhile (fun c => !isDig c)
    if pre.length < seg.length ∧ (r.drop seg.length).head? = some '"' then
      some (((seg.drop pre.length).takeWhile isDig).take 3, i + 11 + seg.length + 1)
    else none
  else none

/-- `re.findall` for the meta-tag pattern: leftmost matches, scanning
resuming after each match. -/
def metaFindall (s : Str) : Nat → Nat → List Str
  | _, 0 => []
  | i, fuel + 1 =>
    if s.length < i + 1 then []
    else match metaAt s i with
      | some (ds, e) => ds :: metaFindall s e fuel
      | none => metaFindall s (i + 1) fuel

/-- The filter loop of source lines 202-206: the first capture whose
numeric value lies in `[1, 999]`. -/
def metaPick : List Str → Option Str
  | [] => none
  | d :: rest =>
    if 1 ≤ digitsVal d ∧ digitsVal d ≤ 999 then some d else metaPick rest

/-- `Path(file_path).name` for POSIX paths: the part after the last
slash. -/
def basename (p : Str) : Str := (p.reverse.takeWhile (fun c => c ≠ '/')).reverse

/-- Method 2's HTML-part sub-chain (source lines 135-153): the encoded
label inside the isolated HTML part, then the label in the rendered
part (the BeautifulSoup call modelled by `render2`, `none` meaning it
raised). -/
def methodHtml (render2 : Str → Option Str) (content : Str) : Option Str :=
  match findHtmlPart content with
  | some hp =>
    (match ffnEncSearch hp with
     | some d => some d
     | none =>
       match render2 hp with
       | some t => ffnSearch t
       | none => none)
  | none => none

/-- Method 3 (source lines 156-166): the `FF #` pattern inside the
decoded title. -/
def methodTitle (hd qs ql : Str → Option Str) (content : Str) : Option Str :=
  match subjectDateSearch content with
  | some cap => ffSearch (decode_mime_string hd qs ql (stripStr cap))
  | none => none

/-- `extract_fast_fact_number` (source lines 116-209).  `render2` models
the BeautifulSoup `get_text` call of lines 146-147 (`none` meaning line
146 raised, caught at line 152); `hd`, `qs`, `ql` are the
`decode_mime_string` oracles; `filePath = []` models a `None`/empty
`file_path` (both falsy at line 120). -/
def extract_fast_fact_number (hd qs ql render2 : Str → Option Str)
    (content : Str) (filePath : Str) : Option Str :=
  match (if filePath ≠ [] then ffSearch (basename filePath) else none) with
  | some d => some d
  | none =>
  match ffnSearch content with
  | some d => some d
  | none =>
  match methodHtml render2 content with
  | some d => some d
  | none =>
  match methodTitle hd qs ql content with
  | some d => some d
  | none =>
  match fastFactUrlSearch content with
  | some d => some d
  | none =>
  match fastFactHashSearch content with
  | some d => some d
  | none =>
  match m6Search (content.take 1000) with
  | some d => some d
  | none =>
  match m7Search (content.take 1000) with
  | some d => some d
  | none => metaPick (metaFindall (content.take 1000) 0 ((content.take 1000).length + 1))

/-- Constant failing oracle, used to instantiate the standard-library
oracles at concrete inputs. -/
def oracleNone : Str → Option Str := fun _ => none

/-- Rendered document whose structural `References` heading text first
occurs in the rendered text *before* the `Published On:` line (an intro
sentence mentions the word); `text.find` then yields that earlier
occurrence as the endpoint. -/
def cdoc1 : RDoc :=
  ⟨("References are important\nPublished On: March 1, 2020\nbody\nReferences\nref1".data),
    [⟨("References are important".data), []⟩,
     ⟨("Published On: March 1, 2020".data), []⟩,
     ⟨("body".data), []⟩,
     ⟨("References".data), []⟩,
     ⟨("ref1".data), []⟩]⟩

/-- Ordinary rendered document with a structural `References` heading
after the `Published On:` line. -/
def wdoc1 : RDoc :=
  ⟨("Published On: May 1, 2020\nsome body text\nReferences\nref1".data),
    [⟨("Published On: May 1, 2020".data), []⟩,
     ⟨("some body text".data), []⟩,
     ⟨("References".data), []⟩,
     ⟨("ref1".data), []⟩]⟩

/-- Rendered document in which a MIME multipart boundary marker appears
between the summary body and the `References` heading. -/
def wdoc2 : RDoc :=
  ⟨("Published On: May 1, 2020\nbody text here\n------MultipartBoundary--delim\njunk\nReferences\nref1".data),
    [⟨("Published On: May 1, 2020".data), []⟩,
     ⟨("body text here".data), []⟩,
     ⟨("References".data), []⟩,
     ⟨("ref1".data), []⟩]⟩

/-- Raw document whose rendered body is empty between the
`Published On:` line and the `References` heading. -/
def contentC3 : Str :=
  ("Content-Type: text/html\n\n<html><body><p>Published On: March 1, 2020</p><p>References</p><p>ref1</p></body></html>".data)

/-- The rendering of `contentC3`: `get_text('\n', strip=True)` of its
three paragraphs. -/
def renderC3 : Str → RDoc := fun _ =>
  ⟨("Published On: March 1, 2020\nReferences\nref1".data),
    [⟨("Published On: March 1, 2020".data), []⟩,
     ⟨("References".data), []⟩,
     ⟨("ref1".data), []⟩]⟩

/-- Rendered text used to exercise the disclaimer rejection of the
textual References tier: its only `references` occurrence sits right
after the disclaimer phrase. -/
def textC4 : Str :=
  ("Published On: May 1, 2020\nyou should consult other relevant and up-to-date experts references\nResources\nstuff".data)

/-- HTML part (as captured by the `Content-Type` regex) with no
`<!DOCTYPE` and a stray `<` in a residual header line before the
`<html` root. -/
def partC5 : Str :=
  ("Content-Type: text/html\nX-Header: a<b\n<html><body>Hi</body></html>".data)

/-- Raw document whose rendered summary body consists of three leading
date strings followed by prose; one cleanup pass strips only the first
two dates. -/
def contentC6 : Str :=
  ("Content-Type: text/html\n\n<html><body><p>Published On: May 5, 2020</p><p>March 1, 2020 April 2, 2021 May 3, 2021 body text</p><p>References</p><p>ref1</p></body></html>".data)

/-- The rendering of `contentC6`. -/
def renderC6 : Str → RDoc := fun _ =>
  ⟨("Published On: May 5, 2020\nMarch 1, 2020 April 2, 2021 May 3, 2021 body text\nReferences\nref1".data),
    [⟨("Published On: May 5, 2020".data), []⟩,
     ⟨("March 1, 2020 April 2, 2021 May 3, 2021 body text".data), []⟩,
     ⟨("References".data), []⟩,
     ⟨("ref1".data), []⟩]⟩

/-- Raw content whose body carries a `Fast Fact Number:` label different
from the file-name number. -/
def contentC7 : Str := ("x Fast Fact Number: 456 y".data)

/-- Raw content carrying only a `Fast Fact Number:` label. -/
def contentC10 : Str := ("Fast Fact Number: 42".data)

theorem stripStr_length (s : Str) : (stripStr s).length ≤ s.length := by
  unfold stripStr
  rw [List.length_reverse]
  calc ((s.dropWhile isWs).reverse.dropWhile isWs).length
      ≤ (s.dropWhile isWs).reverse.length := (List.dropWhile_suffix isWs).length_le
    _ = (s.dropWhile isWs).length := List.length_reverse _
    _ ≤ s.length := (List.dropWhile_suffix isWs).length_le

/-- A matcher is bounded when it always consumes at least one character
of its suffix, never more than the suffix holds, and replaces the
consumed characters by at most as many. -/
def BoundedM (m : Str → Option (Nat × Str)) : Prop :=
  ∀ s n r, m s = some (n, r) → 0 < n ∧ r.length ≤ n ∧ n ≤ s.length

theorem scanSubGo_length (m : Str → Option (Nat × Str)) (hm : BoundedM m) :
    ∀ (fuel : Nat) (s : Str), (scanSubGo m fuel s).length ≤ s.length := by
  intro fuel
  induction fuel with
  | zero => intro s; cases s <;> simp [scanSubGo]
  | succ f ih =>
    intro s
    cases s with
    | nil => simp [scanSubGo]
    | cons c cs =>
      rw [scanSubGo]
      cases hm2 : m (c :: cs) with
      | none =>
        have := ih cs
        simp only [List.length_cons]
        omega
      | some p =>
        obtain ⟨n, r⟩ := p
        have hb := hm _ _ _ hm2
        simp only [List.length_cons] at hb
        simp only
        by_cases h0 : n = 0
        · rw [if_pos h0]
          have := ih cs
          simp only [List.length_cons]
          omega
        · rw [if_neg h0]
          have hd : (cs.drop (n - 1)).length = cs.length - (n - 1) :=
            List.length_drop _ _
          have := ih (cs.drop (n - 1))
          simp only [List.length_append, List.length_cons]
          omega

theorem scanSub_length (m : Str → Option (Nat × Str)) (hm : BoundedM m)
    (s : Str) : (scanSub m s).length ≤ s.length :=
  scanSubGo_length m hm s.length s

theorem takeWhile_length (p : Char → Bool) (l : Str) :
    (l.takeWhile p).length ≤ l.length :=
  ( List.takeWhile_prefix p).length_le

theorem litM_bounded (pat rep : Str) (h : rep.length ≤ pat.length) :
    BoundedM (litM pat rep) := by
  intro s n r hm
  unfold litM at hm
  split at hm
  · next hc =>
    simp only [Bool.and_eq_true, decide_eq_true_eq] at hc
    simp only [Option.some.injEq, Prod.mk.injEq] at hm
    obtain ⟨hn, hr⟩ := hm
    subst hn; subst hr
    have hl := ( List.isPrefixOf_iff_prefix.mp hc.2).length_le
    refine ⟨?_, h, hl⟩
    cases pat with
    | nil => exact absurd rfl hc.1
    | cons a l => simp only [List.length_cons]; omega
  · simp at hm

theorem mNlRun_bounded : BoundedM mNlRun := by
  intro s n r h
  unfold mNlRun at h
  split at h
  · next cs =>
    rw [List.takeWhile_cons_of_pos (by simp)] at h
    simp only [Option.some.injEq, Prod.mk.injEq] at h
    obtain ⟨hn, hr⟩ := h
    subst hn; subst hr
    have := takeWhile_length (fun c => decide (c = '\n')) cs
    refine ⟨by simp, by simp, ?_⟩
    simp only [List.length_cons]
    omega
  · simp at h

theorem mWsRun_bounded : BoundedM mWsRun := by
  intro s n r h
  unfold mWsRun at h
  split at h
  · next c cs =>
    split at h
    · next hw =>
      rw [List.takeWhile_cons_of_pos hw] at h
      simp only [Option.some.injEq, Prod.mk.injEq] at h
      obtain ⟨hn, hr⟩ := h
      subst hn; subst hr
      have := takeWhile_length isWs cs
      refine ⟨by simp, by simp, ?_⟩
      simp only [List.length_cons]
      omega
    · simp at h
  · simp at h

theorem mEqWsNlWs_bounded : BoundedM mEqWsNlWs := by
  intro s n r h
  unfold mEqWsNlWs at h
  split at h
  · next t =>
    dsimp only [] at h
    split at h
    · simp only [Option.some.injEq, Prod.mk.injEq] at h
      obtain ⟨hn, hr⟩ := h
      subst hn; subst hr
      have := takeWhile_length isWs t
      refine ⟨by omega, by simp, ?_⟩
      simp only [List.length_cons]
      omega
    · simp at h
  · simp at h

theorem mEqWsEnd_bounded : BoundedM mEqWsEnd := by
  intro s n r h
  unfold mEqWsEnd at h
  split at h
  · next t =>
    split at h
    · simp only [Option.some.injEq, Prod.mk.injEq] at h
      obtain ⟨hn, hr⟩ := h
      subst hn; subst hr
      exact ⟨by simp, by simp, le_refl _⟩
    · simp at h
  · simp at h

theorem mEqWsNl_bounded : BoundedM mEqWsNl := by
  intro s n r h
  unfold mEqWsNl at h
  split at h
  · next t =>
    dsimp only [] at h
    split at h
    · simp only [Option.some.injEq, Prod.mk.injEq] at h
      obtain ⟨hn, hr⟩ := h
      subst hn; subst hr
      have := takeWhile_length isWs t
      refine ⟨by omega, by simp, ?_⟩
      simp only [List.length_cons]
      omega
    · simp at h
  · simp at h

theorem mEqWs_bounded : BoundedM mEqWs := by
  intro s n r h
  unfold mEqWs at h
  split at h
  · next t =>
    simp only [Option.some.injEq, Prod.mk.injEq] at h
    obtain ⟨hn, hr⟩ := h
    subst hn; subst hr
    have := takeWhile_length isWs t
    refine ⟨by omega, by simp, ?_⟩
    simp only [List.length_cons]
    omega
  · simp at h

theorem mNbSp_bounded : BoundedM mNbSp := by
  intro s n r h
  unfold mNbSp at h
  split at h
  · next hp =>
    dsimp only [] at h
    split at h
    · next hsp =>
      simp only [Option.some.injEq, Prod.mk.injEq] at h
      obtain ⟨hn, hr⟩ := h
      subst hn; subst hr
      have h1 := ( List.isPrefixOf_iff_prefix.mp hp).length_le
      have h2 := ( List.isPrefixOf_iff_prefix.mp hsp).length_le
      have h3 := takeWhile_length isWs (s.drop 4)
      simp only [List.length_drop] at h2 h3
      refine ⟨by omega, by simp, ?_⟩
      simp only [List.length_cons, List.length_nil] at h1 h2
      omega
    · simp at h
  · simp at h

theorem mNav_bounded : BoundedM mNav := by
  intro s n r h
  unfold mNav at h
  obtain ⟨w, hmem, hw⟩ := List.exists_of_findSome?_eq_some h
  split at hw
  · next hp =>
    simp only [Option.some.injEq, Prod.mk.injEq] at hw
    obtain ⟨hn, hr⟩ := hw
    subst hn; subst hr
    have h1 := ( List.isPrefixOf_iff_prefix.mp hp).length_le
    have h2 : (pyLower (s.take w.length)).length = min w.length s.length := by
      simp [pyLower, List.length_take]
    rw [h2] at h1
    have h0 : 0 < w.length := by fin_cases hmem <;> decide
    exact ⟨h0, by simp, by omega⟩
  · simp at hw

theorem mBrokenTag_bounded : BoundedM mBrokenTag := by
  intro s n r h
  unfold mBrokenTag at h
  split at h
  · next t =>
    dsimp only [] at h
    split at h
    · split at h
      · next hgt =>
        simp only [Option.some.injEq, Prod.mk.injEq] at h
        obtain ⟨hn, hr⟩ := h
        subst hn; subst hr
        have h3 := takeWhile_length isWs t
        have h4 := takeWhile_length (fun c => decide (c ≠ '>'))
          (t.drop (t.takeWhile isWs).length)
        have h5 : 0 < ((t.drop (t.takeWhile isWs).length).drop
            ((t.drop (t.takeWhile isWs).length).takeWhile
              (fun c => decide (c ≠ '>'))).length).length := by
          cases hx : (t.drop (t.takeWhile isWs).length).drop
              ((t.drop (t.takeWhile isWs).length).takeWhile
                (fun c => decide (c ≠ '>'))).length with
          | nil => rw [hx] at hgt; simp at hgt
          | cons a l => simp
        simp only [List.length_drop] at h4 h5
        refine ⟨by omega, by simp, ?_⟩
        simp only [List.length_cons]
        omega
      · simp at h
    · simp at h
  · simp at h

theorem mTag_bounded : BoundedM mTag := by
  intro s n r h
  unfold mTag at h
  split at h
  · next t =>
    dsimp only [] at h
    split at h
    · next hc =>
      simp only [Bool.and_eq_true, decide_eq_true_eq] at hc
      simp only [Option.some.injEq, Prod.mk.injEq] at h
      obtain ⟨hn, hr⟩ := h
      subst hn; subst hr
      have h4 := takeWhile_length (fun c => decide (c ≠ '>')) t
      have h5 : 0 < (t.drop (t.takeWhile (fun c => decide (c ≠ '>'))).length).length := by
        cases hx : t.drop (t.takeWhile (fun c => decide (c ≠ '>'))).length with
        | nil => rw [hx] at hc; simp at hc
        | cons a l => simp
      simp only [List.length_drop] at h5
      refine ⟨by omega, by simp, ?_⟩
      simp only [List.length_cons]
      omega
    · simp at h
  · simp at h

theorem mEntity_bounded : BoundedM mEntity := by
  intro s n r h
  unfold mEntity at h
  split at h
  · next t =>
    dsimp only [] at h
    split at h
    · next hc =>
      simp only [Bool.and_eq_true, decide_eq_true_eq] at hc
      simp only [Option.some.injEq, Prod.mk.injEq] at h
      obtain ⟨hn, hr⟩ := h
      subst hn; subst hr
      have h4 := takeWhile_length isEntChar t
      have h5 : 0 < (t.drop (t.takeWhile isEntChar).length).length := by
        cases hx : t.drop (t.takeWhile isEntChar).length with
        | nil => rw [hx] at hc; simp at hc
        | cons a l => simp
      simp only [List.length_drop] at h5
      refine ⟨by omega, by simp, ?_⟩
      simp only [List.length_cons]
      omega
    · simp at h
  · simp at h

theorem mSentEnd_bounded : BoundedM mSentEnd := by
  intro s n r h
  unfold mSentEnd at h
  dsimp only [] at h
  split at h
  · simp at h
  · next hw =>
    split at h
    · next c rest heq =>
      split at h
      · simp only [Option.some.injEq, Prod.mk.injEq] at h
        obtain ⟨hn, hr⟩ := h
        subst hn; subst hr
        have h5 : 0 < (s.drop (s.takeWhile isWs).length).length := by
          rw [heq]; simp
        have h6 : (s.takeWhile isWs).length ≠ 0 := by
          intro hz
          exact hw (by cases hx : s.takeWhile isWs with
            | nil => rfl
            | cons a l => rw [hx] at hz; simp at hz)
        simp only [List.length_drop] at h5
        refine ⟨by omega, by simp only [List.length_cons, List.length_nil]; omega, le_refl _⟩
      · simp at h
    · simp at h

theorem mSentMid_bounded : BoundedM mSentMid := by
  intro s n r h
  unfold mSentMid at h
  dsimp only [] at h
  split at h
  · simp at h
  · next hw =>
    split at h
    · next c rest heq =>
      split at h
      · split at h
        · next hw2 =>
          simp only [Option.some.injEq, Prod.mk.injEq] at h
          obtain ⟨hn, hr⟩ := h
          subst hn; subst hr
          have h5 : (s.drop (s.takeWhile isWs).length).length = rest.length + 1 := by
            rw [heq]; simp
          have h7 := takeWhile_length isWs rest
          have h8 : 0 < (rest.takeWhile isWs).length := by
            cases hx : rest.takeWhile isWs with
            | nil => exact absurd hx hw2
            | cons a l => simp
          simp only [List.length_drop] at h5
          refine ⟨by omega, by simp only [List.length_cons, List.length_nil]; omega, by omega⟩
        · simp at h
      · simp at h
    · simp at h

theorem mWsEqWs_bounded : BoundedM mWsEqWs := by
  intro s n r h
  unfold mWsEqWs at h
  dsimp only [] at h
  split at h
  · simp at h
  · next hw =>
    split at h
    · next rest heq =>
      split at h
      · next hw2 =>
        simp only [Option.some.injEq, Prod.mk.injEq] at h
        obtain ⟨hn, hr⟩ := h
        subst hn; subst hr
        have h5 : (s.drop (s.takeWhile isWs).length).length = rest.length + 1 := by
          rw [heq]; simp
        have h7 := takeWhile_length isWs rest
        simp only [List.length_drop] at h5
        refine ⟨by omega, by simp only [List.length_cons, List.length_nil]; omega, by omega⟩
      · simp at h
    · simp at h

theorem mEqCap2_bounded : BoundedM mEqCap2 := by
  intro s n r h
  unfold mEqCap2 at h
  split at h
  · next t =>
    dsimp only [] at h
    split at h
    · next c1 c2 rest heq =>
      split at h
      · simp only [Option.some.injEq, Prod.mk.injEq] at h
        obtain ⟨hn, hr⟩ := h
        subst hn; subst hr
        have h5 : (t.drop (t.takeWhile isWs).length).length = rest.length + 2 := by
          rw [heq]; simp
        have h7 := takeWhile_length isWs t
        simp only [List.length_drop] at h5
        refine ⟨by omega, by simp only [List.length_cons, List.length_nil]; omega, ?_⟩
        simp only [List.length_cons]
        omega
      · simp at h
    · simp at h
  · simp at h

theorem dateStrip_length (mode : Nat) (s : Str) :
    (dateStrip mode s).length ≤ s.length := by
  unfold dateStrip
  split
  · simp only [List.length_drop]; omega
  · exact le_refl _

theorem cleanupSummary_length (s0 : Str) :
    (cleanupSummary s0).length ≤ s0.length := by
  unfold cleanupSummary
  refine le_trans (stripStr_length _) ?_
  refine le_trans (scanSub_length _ mEqCap2_bounded _) ?_
  refine le_trans (scanSub_length _ mWsEqWs_bounded _) ?_
  refine le_trans (scanSub_length _ mSentMid_bounded _) ?_
  refine le_trans (scanSub_length _ mSentEnd_bounded _) ?_
  refine le_trans (scanSub_length _ mEqWs_bounded _) ?_
  refine le_trans (scanSub_length _ mEqWsNl_bounded _) ?_
  refine le_trans (scanSub_length _ mEqWsEnd_bounded _) ?_
  refine le_trans (stripStr_length _) ?_
  refine le_trans (scanSub_length _ mWsRun_bounded _) ?_
  refine le_trans (scanSub_length _ mEntity_bounded _) ?_
  refine le_trans (scanSub_length _ mTag_bounded _) ?_
  refine le_trans (scanSub_length _ mBrokenTag_bounded _) ?_
  refine le_trans (scanSub_length _ mNav_bounded _) ?_
  refine le_trans (dateStrip_length _ _) ?_
  refine le_trans (dateStrip_length _ _) ?_
  refine le_trans (dateStrip_length _ _) ?_
  refine le_trans (scanSub_length _ (litM_bounded _ _ (by decide)) _) ?_
  refine le_trans (scanSub_length _ (litM_bounded _ _ (by decide)) _) ?_
  refine le_trans (scanSub_length _ (litM_bounded _ _ (by decide)) _) ?_
  refine le_trans (scanSub_length _ (litM_bounded _ _ (by decide)) _) ?_
  refine le_trans (scanSub_length _ (litM_bounded _ _ (by decide)) _) ?_
  refine le_trans (scanSub_length _ (litM_bounded _ _ (by decide)) _) ?_
  refine le_trans (scanSub_length _ mEqWs_bounded _) ?_
  refine le_trans (scanSub_length _ mEqWsNl_bounded _) ?_
  refine le_trans (scanSub_length _ mEqWsEnd_bounded _) ?_
  refine le_trans (scanSub_length _ mNbSp_bounded _) ?_
  refine le_trans (scanSub_length _ (litM_bounded _ _ (by decide)) _) ?_
  refine le_trans (scanSub_length _ (litM_bounded _ _ (by decide)) _) ?_
  refine le_trans (scanSub_length _ (litM_bounded _ _ (by decide)) _) ?_
  refine le_trans (scanSub_length _ (litM_bounded _ _ (by decide)) _) ?_
  refine le_trans (scanSub_length _ (litM_bounded _ _ (by decide)) _) ?_
  refine le_trans (scanSub_length _ (litM_bounded _ _ (by decide)) _) ?_
  refine le_trans (scanSub_length _ (litM_bounded _ _ (by decide)) _) ?_
  refine le_trans (scanSub_length _ (litM_bounded _ _ (by decide)) _) ?_
  refine le_trans (scanSub_length _ (litM_bounded _ _ (by decide)) _) ?_
  refine le_trans (scanSub_length _ (litM_bounded _ _ (by decide)) _) ?_
  refine le_trans (scanSub_length _ (litM_bounded _ _ (by decide)) _) ?_
  refine le_trans (scanSub_length _ (litM_bounded _ _ (by decide)) _) ?_
  refine le_trans (scanSub_length _ (litM_bounded _ _ (by decide)) _) ?_
  refine le_trans (scanSub_length _ (litM_bounded _ _ (by decide)) _) ?_
  refine le_trans (scanSub_length _ (litM_bounded _ _ (by decide)) _) ?_
  refine le_trans (scanSub_length _ (litM_bounded _ _ (by decide)) _) ?_
  refine le_trans (scanSub_length _ (litM_bounded _ _ (by decide)) _) ?_
  refine le_trans (scanSub_length _ (litM_bounded _ _ (by decide)) _) ?_
  refine le_trans (scanSub_length _ (litM_bounded _ _ (by decide)) _) ?_
  refine le_trans (scanSub_length _ (litM_bounded _ _ (by decide)) _) ?_
  refine le_trans (scanSub_length _ mEqWsEnd_bounded _) ?_
  refine le_trans (scanSub_length _ mEqWsNlWs_bounded _) ?_
  refine le_trans (scanSub_length _ mWsRun_bounded _) ?_
  refine le_trans (scanSub_length _ mNlRun_bounded _) ?_
  exact stripStr_length _

theorem tier2End_accept (text : Str) (p : Nat)
    (h : tier2End text = (p : Int)) : tier2Accept text p = true := by
  unfold tier2End at h
  split at h
  · next q hq =>
    have hpq : q = p := by
      simpa using h
    subst hpq
    exact List.find?_some hq
  · omega

theorem refsPositions_mem (text : Str) (p : Nat) (h : p ∈ refsPositions text) :
    ("references".data).isPrefixOf ((pyLower text).drop p) = true ∧
    p + 10 ≤ text.length := by
  unfold refsPositions at h
  rw [List.mem_filter] at h
  refine ⟨h.2, ?_⟩
  have hl := ( List.isPrefixOf_iff_prefix.mp h.2).length_le
  simp only [List.length_drop, pyLower, List.length_map,
    List.length_cons, List.length_nil] at hl
  omega

theorem sliceNat_getLast (text : Str) (a pos : Nat)
    (h1 : a < pos) (h2 : pos ≤ text.length) :
    (pySliceNat text a pos).getLast? = text[pos - 1]? := by
  unfold pySliceNat
  rw [List.getLast?_eq_getElem?]
  have hlen : ((text.drop a).take (pos - a)).length = pos - a := by
    simp only [List.length_take, List.length_drop]
    omega
  rw [hlen, List.getElem?_take, if_pos (by omega), List.getElem?_drop]
  congr 1
  omega

theorem sliceNat_getElem (text : Str) (a b i : Nat) (h : a + i < b)
    (_h2 : a + i < text.length) :
    (pySliceNat text a b)[i]? = text[a + i]? := by
  unfold pySliceNat
  rw [List.getElem?_take, if_pos (by omega), List.getElem?_drop]

theorem isPrefixOf_getElem (p s : Str) (h : p.isPrefixOf s = true)
    (i : Nat) (hi : i < p.length) : s[i]? = p[i]? := by
  obtain ⟨t, rfl⟩ := List.isPrefixOf_iff_prefix.mp h
  exact List.getElem?_append_left hi

theorem pySlice_forward (s : Str) (i j : Int) :
    ∃ a b : Nat, a ≤ b ∧ pySlice s i j = pySliceNat s a b := by
  by_cases h : pyIdx s.length i ≤ pyIdx s.length j
  · exact ⟨pyIdx s.length i, pyIdx s.length j, h, rfl⟩
  · refine ⟨pyIdx s.length i, pyIdx s.length i, le_refl _, ?_⟩
    unfold pySlice pySliceNat
    dsimp only []
    have hz : pyIdx s.length j - pyIdx s.length i = 0 := by omega
    rw [hz]
    simp

theorem extractSummaryR_shape (d : RDoc) :
    extractSummaryR d = sentinel ∨
    ∃ a b : Nat, a ≤ b ∧
      extractSummaryR d = cleanupSummary (pySliceNat d.text a b) := by
  unfold extractSummaryR
  dsimp only []
  split
  · right
    obtain ⟨a, b, hab, he⟩ :=
      pySlice_forward d.text (afterPublished d.text)
        (effectiveEnd d.text (detectEnd d))
    exact ⟨a, b, hab, by rw [he]⟩
  · left; rfl

/-- Claim C2: for every rendered document in which the MIME multipart
boundary marker occurs in the rendered text before the end offset found
by the References/Resources detection tiers, and a summary is actually
sliced, the effective end offset used to slice the summary is the
boundary marker's position, not the later detected position. -/
theorem c2_mime_override (d : RDoc)
    (h1 : pyFind d.text pubMarker ≠ -1)
    (h2 : detectEnd d ≠ -1)
    (h3 : pyFind d.text pubMarker < detectEnd d)
    (h4 : mimePos d.text ≠ -1)
    (h5 : mimePos d.text < detectEnd d) :
    extractSummaryR d =
      cleanupSummary (pySlice d.text (afterPublished d.text) (mimePos d.text)) := by
  unfold extractSummaryR
  dsimp only []
  rw [if_pos ⟨h1, h2, h3⟩]
  unfold effectiveEnd
  rw [if_pos ⟨h4, h5⟩]

/-- Witness for C2 on a concrete document: the boundary marker sits
before the detected References heading, and the summary is sliced at
the marker. -/
theorem c2_mime_override_witness :
    pyFind wdoc2.text pubMarker ≠ -1 ∧ detectEnd wdoc2 ≠ -1 ∧
    pyFind wdoc2.text pubMarker < detectEnd wdoc2 ∧
    mimePos wdoc2.text ≠ -1 ∧ mimePos wdoc2.text < detectEnd wdoc2 ∧
    extractSummaryR wdoc2 =
      cleanupSummary (pySlice wdoc2.text (afterPublished wdoc2.text) (mimePos wdoc2.text)) :=
  ⟨by decide, by decide, by decide, by decide, by decide,
    c2_mime_override wdoc2 (by decide) (by decide) (by decide) (by decide) (by decide)⟩

/-- Claim C5: in the code as written, the trimming of leading MIME-header
bytes does *not* search `<!DOCTYPE`, `<html`, `<body`, first-`<` in
order: the `or`-chained `find` calls make `-1` truthy, so when
`<!DOCTYPE` is absent the `<html` and `<body` searches are skipped and
the first `<` wins even when it precedes `<html`.  On `partC5` the code
trims at the stray `<` inside a header line while the claimed order
would trim at `<html`. -/
theorem c5_code_divergence :
    trimHtml partC5 = some (("<b\n<html><body>Hi</body></html>").data) ∧
    trimHtmlClaimed partC5 = some (("<html><body>Hi</body></html>").data) ∧
    trimHtml partC5 ≠ trimHtmlClaimed partC5 :=
  ⟨by decide, by decide, by decide⟩

/-- Claim C9: when the content has no `Subject: ... Date:` header
sequence, `extract_title` returns the non-empty sentinel
`Unknown Title`. -/
theorem c9_unknown_title (hd qs ql : Str → Option Str) (content : Str)
    (h : subjectDateSearch content = none) :
    extract_title hd qs ql content = ("Unknown Title".data) ∧
    ("Unknown Title".data) ≠ ([] : Str) := by
  constructor
  · unfold extract_title
    rw [h]
  · decide

/-- Witness for C9 at concrete content with no header sequence. -/
theorem c9_unknown_title_witness :
    extract_title oracleNone oracleNone oracleNone ("hello world".data) =
      ("Unknown Title".data) :=
  (c9_unknown_title oracleNone oracleNone oracleNone ("hello world".data)
    (by decide)).1

/-- Claim C7: the identifier strategies are tried in strict priority
order with first match winning: whenever the file name's `FF\s*#\s*(\d+)`
search captures `123`, the extractor returns `123` regardless of the
content (in particular when the body carries a different
`Fast Fact Number: 456`). -/
theorem c7_filename_priority (hd qs ql render2 : Str → Option Str)
    (content : Str) (filePath : Str)
    (h1 : filePath ≠ [])
    (h2 : ffSearch (basename filePath) = some ("123".data))
    (_h3 : containsStr content ("Fast Fact Number: 456".data) = true) :
    extract_fast_fact_number hd qs ql render2 content filePath =
      some ("123".data) := by
  unfold extract_fast_fact_number
  dsimp only []
  rw [if_pos h1, h2]

/-- Witness for C7: file name `FF #123 foo.mhtml` beats the body's
`Fast Fact Number: 456`. -/
theorem c7_filename_priority_witness :
    (("FF #123 foo.mhtml".data) ≠ ([] : Str)) ∧
    ffSearch (basename ("FF #123 foo.mhtml".data)) = some ("123".data) ∧
    containsStr contentC7 ("Fast Fact Number: 456".data) = true ∧
    extract_fast_fact_number oracleNone oracleNone oracleNone oracleNone
      contentC7 ("FF #123 foo.mhtml".data) = some ("123".data) :=
  ⟨by decide, by decide, by decide,
    c7_filename_priority oracleNone oracleNone oracleNone oracleNone
      contentC7 ("FF #123 foo.mhtml".data) (by decide) (by decide) (by decide)⟩

/-- Claim C8: `decode_mime_string` is total and never raises (exceptions
in the modelled standard-library calls surface as `none` and are caught):
the structured header decoding is attempted first when the `=?utf-8?Q?`
marker is present, then the manual quoted-printable path, and when every
strategy fails the input is returned unchanged. -/
theorem c8_decode_fallback (hd qs ql : Str → Option Str) (text : Str) :
    (∀ u, containsStr text ("=?utf-8?Q?".data) = true → hd text = some u →
      decode_mime_string hd qs ql text = u) ∧
    ((containsStr text ("=?utf-8?Q?".data) = true → hd text = none) →
      (("=?utf-8?Q?".data).isPrefixOf text = true ∧
        ("?=".data).isSuffixOf text = true) →
      (∀ u, qs (pySlice text 10 (-2)) = some u →
        decode_mime_string hd qs ql text = u) ∧
      (qs (pySlice text 10 (-2)) = none →
        decode_mime_string hd qs ql text = text)) ∧
    ((containsStr text ("=?utf-8?Q?".data) = true → hd text = none) →
      ¬ (("=?utf-8?Q?".data).isPrefixOf text = true ∧
        ("?=".data).isSuffixOf text = true) →
      (∀ u, ql text = some u → decode_mime_string hd qs ql text = u) ∧
      (ql text = none → decode_mime_string hd qs ql text = text)) := by
  refine ⟨?_, ?_, ?_⟩
  · intro u hc hh
    unfold decode_mime_string
    dsimp only []
    rw [if_pos hc, hh]
  · intro hn hps
    have hd1 : (if containsStr text ("=?utf-8?Q?".data) = true
        then hd text else none) = none := by
      by_cases hc : containsStr text ("=?utf-8?Q?".data) = true
      · rw [if_pos hc]; exact hn hc
      · rw [if_neg hc]
    constructor
    · intro u hq
      unfold decode_mime_string
      dsimp only []
      simp only [hd1]
      rw [if_pos hps, hq]
    · intro hq
      unfold decode_mime_string
      dsimp only []
      simp only [hd1]
      rw [if_pos hps, hq]
  · intro hn hps
    have hd1 : (if containsStr text ("=?utf-8?Q?".data) = true
        then hd text else none) = none := by
      by_cases hc : containsStr text ("=?utf-8?Q?".data) = true
      · rw [if_pos hc]; exact hn hc
      · rw [if_neg hc]
    constructor
    · intro u hq
      unfold decode_mime_string
      dsimp only []
      simp only [hd1]
      rw [if_neg hps, hq]
    · intro hq
      unfold decode_mime_string
      dsimp only []
      simp only [hd1]
      rw [if_neg hps, hq]

/-- Witness for C8: all strategies fail on plain content and the input
comes back unchanged. -/
theorem c8_decode_fallback_witness :
    decode_mime_string oracleNone oracleNone oracleNone ("hello".data) =
      ("hello".data) :=
  ((c8_decode_fallback oracleNone oracleNone oracleNone ("hello".data)).2.2
    (fun _ => rfl) (by decide)).2 rfl

/-- Claim C1, counterexample: `cdoc1` has a well-formed `Published On:`
line (found, with a newline after it) and a structural `References`
heading among its tags, yet `extract_summary` returns the sentinel
instead of a summary: `text.find` locates the heading string at its
first occurrence, which precedes the `Published On:` line, so the
span check fails. -/
theorem c1_counterexample :
    pyFind cdoc1.text pubMarker ≠ -1 ∧
    afterPublished cdoc1.text ≠ -1 ∧
    (∃ t ∈ cdoc1.tags, stripStr t.text ∈ refHeads) ∧
    extractSummaryR cdoc1 = sentinel := by
  refine ⟨by decide, by decide, ⟨⟨("References".data), []⟩, by decide, by decide⟩,
    by decide⟩

/-- Claim C1, amended: when the structural scan detects a References
heading, the summary — when one is returned at all — is cut from a span
whose end lies at or before the first occurrence of the detected
heading text, hence excludes the heading and everything after it; when
the `Published On:` position does not lie strictly before that
occurrence, the sentinel is returned instead. -/
theorem c1_span_amended (d : RDoc)
    (h1 : structEndRef d.text d.tags ≠ -1) :
    (¬ (pyFind d.text pubMarker ≠ -1 ∧
        pyFind d.text pubMarker < structEndRef d.text d.tags) →
      extractSummaryR d = sentinel) ∧
    (pyFind d.text pubMarker ≠ -1 →
      pyFind d.text pubMarker < structEndRef d.text d.tags →
      ∃ b : Int, b ≤ structEndRef d.text d.tags ∧
        extractSummaryR d =
          cleanupSummary (pySlice d.text (afterPublished d.text) b)) := by
  have hde : detectEnd d = structEndRef d.text d.tags := by
    unfold detectEnd
    dsimp only []
    rw [if_pos h1]
  constructor
  · intro hno
    unfold extractSummaryR
    dsimp only []
    rw [hde, if_neg (fun hcon => hno ⟨hcon.1, hcon.2.2⟩)]
  · intro hp hlt
    refine ⟨effectiveEnd d.text (structEndRef d.text d.tags), ?_, ?_⟩
    · unfold effectiveEnd
      split
      · next hm => exact le_of_lt hm.2
      · exact le_refl _
    · unfold extractSummaryR
      dsimp only []
      rw [hde, if_pos ⟨hp, h1, hlt⟩]

/-- Witness for the amended C1 on an ordinary document whose heading
follows the `Published On:` line. -/
theorem c1_span_amended_witness :
    structEndRef wdoc1.text wdoc1.tags ≠ -1 ∧
    ∃ b : Int, b ≤ structEndRef wdoc1.text wdoc1.tags ∧
      extractSummaryR wdoc1 =
        cleanupSummary (pySlice wdoc1.text (afterPublished wdoc1.text) b) :=
  ⟨by decide, (c1_span_amended wdoc1 (by decide)).2 (by decide) (by decide)⟩

/-- Claim C3, counterexample: on a document whose rendered body between
the `Published On:` line and the `References` heading is a bare newline,
`extract_summary` returns the empty string — not the sentinel — so it
does not always return either a positive-length summary or the
sentinel. -/
theorem c3_counterexample :
    extract_summary renderC3 contentC3 = ([] : Str) ∧
    (([] : Str) ≠ sentinel) :=
  ⟨by decide, by decide⟩

/-- Claim C3, amended: `extract_summary` either returns the sentinel or
the cleanup of a forward (never negative-length) slice of *this*
document's rendered text — the rendering of its captured and trimmed
HTML part; the cleaned summary may be empty. -/
theorem c3_amended (render : Str → RDoc) (content : Str) :
    extract_summary render content = sentinel ∨
    ∃ part h : Str, findHtmlPart content = some part ∧ trimHtml part = some h ∧
      ∃ a b : Nat, a ≤ b ∧
        extract_summary render content =
          cleanupSummary (pySliceNat (render h).text a b) := by
  cases hfp : findHtmlPart content with
  | none =>
    left
    unfold extract_summary
    rw [hfp]
  | some part =>
    cases htr : trimHtml part with
    | none =>
      left
      unfold extract_summary
      rw [hfp]
      dsimp only []
      rw [htr]
    | some h =>
      have hes : extract_summary render content = extractSummaryR (render h) := by
        unfold extract_summary
        rw [hfp]
        dsimp only []
        rw [htr]
      rcases extractSummaryR_shape (render h) with hs | ⟨a, b, hab, he⟩
      · left; rw [hes]; exact hs
      · right
        refine ⟨part, h, rfl, htr, a, b, hab, ?_⟩
        rw [hes]; exact he

/-- Claim C6, counterexample: a valid summary span whose body starts
with three date strings normalises to `May 3, 2021 body text` (the
date-removal stage strips at most one date per pattern variant), and a
second application of the cleanup strips the remaining date: the
cleanup sequence is not idempotent. -/
theorem c6_counterexample :
    extract_summary renderC6 contentC6 = ("May 3, 2021 body text".data) ∧
    cleanupSummary ("May 3, 2021 body text".data) ≠
      ("May 3, 2021 body text".data) :=
  ⟨by decide, by decide⟩

/-- Claim C6, amended: a second application of the cleanup sequence to
an extracted summary never lengthens it (every stage only deletes or
shrinks matches); it can strip further, so idempotence fails. -/
theorem c6_amended (d : RDoc) :
    (cleanupSummary (extractSummaryR d)).length ≤ (extractSummaryR d).length :=
  cleanupSummary_length _

theorem getElem_some_lt (l : Str) (n : Nat) (a : Char) (h : l[n]? = some a) :
    n < l.length := by
  by_contra hc
  rw [List.getElem?_eq_none (by omega)] at h
  simp at h

/-- Claim C4: in the textual References tier, an occurrence is never
selected when the disclaimer phrase appears in its 50-character context
window, when its immediately preceding character is not one of newline,
space, `.`, `:`, `;`, or when its immediately following character is a
digit; and when the structural tier found nothing and every occurrence
is disclaimer-preceded, the tier yields nothing and detection falls
through to the Resources tier. -/
theorem c4_textual_rejections (text : Str) (pos : Nat)
    (hmem : pos ∈ refsPositions text) :
    (containsStr (pySliceNat text (pos - 50) pos) disclaimer = true →
      tier2End text ≠ (pos : Int)) ∧
    (∀ c : Char, 0 < pos → text[pos - 1]? = some c →
      c ∉ (['\n', ' ', '.', ':', ';'] : List Char) →
      tier2End text ≠ (pos : Int)) ∧
    (∀ c : Char, text[pos + 10]? = some c → isDig c = true →
      tier2End text ≠ (pos : Int)) ∧
    (∀ d : RDoc, d.text = text → structEndRef text d.tags = -1 →
      (∀ q ∈ refsPositions text,
        containsStr (pySliceNat text (q - 50) q) disclaimer = true) →
      tier2End text = -1 ∧ detectEnd d = resourcesEnd d) := by
  have hlen10 := (refsPositions_mem text pos hmem).2
  refine ⟨?_, ?_, ?_, ?_⟩
  · intro hdis heq
    have hacc := tier2End_accept text pos heq
    unfold tier2Accept at hacc
    dsimp only [] at hacc
    simp only [Bool.and_eq_true, Bool.or_eq_true, Bool.not_eq_true',
      decide_eq_true_eq] at hacc
    rw [hacc.1.1.1] at hdis
    exact Bool.false_ne_true hdis
  · intro c hpos hget hnotin heq
    have hacc := tier2End_accept text pos heq
    unfold tier2Accept at hacc
    dsimp only [] at hacc
    simp only [Bool.and_eq_true, Bool.or_eq_true, Bool.not_eq_true',
      decide_eq_true_eq] at hacc
    have hlast : (pySliceNat text (pos - 50) pos).getLast? = text[pos - 1]? :=
      sliceNat_getLast text (pos - 50) pos (by omega) (by omega)
    have hne : pySliceNat text (pos - 50) pos ≠ [] := by
      apply List.length_pos.mp
      unfold pySliceNat
      simp only [List.length_take, List.length_drop]
      omega
    rcases hacc.1.1.2 with ((((h | h) | h) | h) | h) | h
    · exact hne h
    all_goals
      rw [hlast, hget] at h
      injection h with h
      rw [← h] at hnotin
      simp at hnotin
  · intro c hget hdig heq
    have hacc := tier2End_accept text pos heq
    unfold tier2Accept at hacc
    dsimp only [] at hacc
    simp only [Bool.and_eq_true, Bool.or_eq_true, Bool.not_eq_true',
      decide_eq_true_eq] at hacc
    have hlt : pos + 10 < text.length := getElem_some_lt text (pos + 10) c hget
    have h10 : (pySliceNat text pos (min text.length (pos + 50)))[10]? =
        text[pos + 10]? :=
      sliceNat_getElem text pos (min text.length (pos + 50)) 10
        (by omega) (by omega)
    rcases hacc.2.2 with ((((h | h) | h) | h) | h) | h
    · omega
    · rw [hget] at h
      injection h with h
      rw [h] at hdig
      exact absurd hdig (by decide)
    · rw [hget] at h
      injection h with h
      rw [h] at hdig
      exact absurd hdig (by decide)
    · rw [hget] at h
      injection h with h
      rw [h] at hdig
      exact absurd hdig (by decide)
    · have hq := isPrefixOf_getElem _ _ h 10 (by decide)
      rw [h10, hget] at hq
      have : c = ':' := by
        have hv : (("References:".data))[10]? = some ':' := by decide
        rw [hv] at hq
        injection hq
      rw [this] at hdig
      exact absurd hdig (by decide)
    · have hq := isPrefixOf_getElem _ _ h 10 (by decide)
      rw [h10, hget] at hq
      have : c = '\n' := by
        have hv : (("References\n".data))[10]? = some '\n' := by decide
        rw [hv] at hq
        injection hq
      rw [this] at hdig
      exact absurd hdig (by decide)
  · intro d hdt hse hall
    have ht2 : tier2End text = -1 := by
      unfold tier2End
      have hnone : (refsPositions text).find? (fun p => tier2Accept text p) = none := by
        rw [List.find?_eq_none]
        intro q hq hacc
        unfold tier2Accept at hacc
        dsimp only [] at hacc
        simp only [Bool.and_eq_true, Bool.or_eq_true, Bool.not_eq_true',
          decide_eq_true_eq] at hacc
        have := hall q hq
        rw [hacc.1.1.1] at this
        exact Bool.false_ne_true this
      rw [hnone]
    refine ⟨ht2, ?_⟩
    unfold detectEnd
    dsimp only []
    rw [hdt, hse, ht2]
    simp

/-- Witness for C4: the single `references` occurrence of `textC4` sits
right after the disclaimer phrase and is not selected. -/
theorem c4_textual_rejections_witness :
    (83 ∈ refsPositions textC4) ∧
    containsStr (pySliceNat textC4 (83 - 50) 83) disclaimer = true ∧
    tier2End textC4 ≠ ((83 : Nat) : Int) :=
  ⟨by decide, by decide,
    (c4_textual_rejections textC4 83 (by decide)).1 (by decide)⟩

theorem takeWhile_all_true (p : Char → Bool) (l : Str) :
    (l.takeWhile p).all p = true := by
  rw [List.all_eq_true]
  intro x hx
  exact List.mem_takeWhile_imp hx

theorem take_all_true (p : Char → Bool) (l : Str) (n : Nat)
    (h : l.all p = true) : (l.take n).all p = true := by
  rw [List.all_eq_true] at h ⊢
  intro x hx
  exact h x (List.mem_of_mem_take hx)

theorem take3_ne_nil (l : Str) (h : l ≠ []) : l.take 3 ≠ [] := by
  cases l with
  | nil => exact absurd rfl h
  | cons a t => simp

theorem tryFFAt_digits (s : Str) (i : Nat) (d : Str)
    (h : tryFFAt s i = some d) : d ≠ [] ∧ d.all isDig = true := by
  unfold tryFFAt at h
  split at h
  · split at h
    · dsimp only [] at h
      split at h
      · split at h
        · next hne =>
          injection h with h
          subst h
          exact ⟨hne, takeWhile_all_true _ _⟩
        · simp at h
      · simp at h
    · simp at h
  · simp at h

theorem ffSearch_digits (s : Str) (d : Str) (h : ffSearch s = some d) :
    d ≠ [] ∧ d.all isDig = true := by
  obtain ⟨i, _, hi⟩ := List.exists_of_findSome?_eq_some h
  exact tryFFAt_digits s i d hi

theorem ffnLabelAt_digits (s : Str) (i : Nat) (d : Str)
    (h : ffnLabelAt s i = some d) : d ≠ [] ∧ d.all isDig = true := by
  unfold ffnLabelAt at h
  split at h
  · dsimp only [] at h
    split at h
    · next hne =>
      injection h with h
      subst h
      exact ⟨hne, takeWhile_all_true _ _⟩
    · simp at h
  · simp at h

theorem ffnSearch_digits (s : Str) (d : Str) (h : ffnSearch s = some d) :
    d ≠ [] ∧ d.all isDig = true := by
  obtain ⟨i, _, hi⟩ := List.exists_of_findSome?_eq_some h
  exact ffnLabelAt_digits s i d hi

theorem ffnEncAt_digits (s : Str) (i : Nat) (d : Str)
    (h : ffnEncAt s i = some d) : d ≠ [] ∧ d.all isDig = true := by
  unfold ffnEncAt at h
  split at h
  · dsimp only [] at h
    split at h
    · split at h
      · next hne =>
        injection h with h
        subst h
        exact ⟨hne, takeWhile_all_true _ _⟩
      · simp at h
    · simp at h
  · simp at h

theorem ffnEncSearch_digits (s : Str) (d : Str) (h : ffnEncSearch s = some d) :
    d ≠ [] ∧ d.all isDig = true := by
  obtain ⟨i, _, hi⟩ := List.exists_of_findSome?_eq_some h
  exact ffnEncAt_digits s i d hi

theorem fastFactUrlAt_digits (s : Str) (i : Nat) (d : Str)
    (h : fastFactUrlAt s i = some d) : d ≠ [] ∧ d.all isDig = true := by
  unfold fastFactUrlAt at h
  split at h
  · dsimp only [] at h
    split at h
    · next c r2 heq =>
      split at h
      · next hdig =>
        injection h with h
        subst h
        constructor
        · rw [heq, List.takeWhile_cons_of_pos hdig]
          simp
        · exact takeWhile_all_true _ _
      · simp at h
    · simp at h
  · simp at h

theorem fastFactUrlSearch_digits (s : Str) (d : Str)
    (h : fastFactUrlSearch s = some d) : d ≠ [] ∧ d.all isDig = true := by
  obtain ⟨i, _, hi⟩ := List.exists_of_findSome?_eq_some h
  exact fastFactUrlAt_digits s i d hi

theorem fastFactHashAt_digits (s : Str) (i : Nat) (d : Str)
    (h : fastFactHashAt s i = some d) : d ≠ [] ∧ d.all isDig = true := by
  unfold fastFactHashAt at h
  split at h
  · dsimp only [] at h
    split at h
    · split at h
      · next hne =>
        injection h with h
        subst h
        exact ⟨hne, takeWhile_all_true _ _⟩
      · simp at h
    · simp at h
  · simp at h

theorem fastFactHashSearch_digits (s : Str) (d : Str)
    (h : fastFactHashSearch s = some d) : d ≠ [] ∧ d.all isDig = true := by
  obtain ⟨i, _, hi⟩ := List.exists_of_findSome?_eq_some h
  exact fastFactHashAt_digits s i d hi

theorem m6At_digits (s : Str) (i : Nat) (d : Str)
    (h : m6At s i = some d) : d ≠ [] ∧ d.all isDig = true := by
  unfold m6At at h
  dsimp only [] at h
  split at h
  · next d2 hb1 =>
    injection h with h
    subst h
    split at hb1
    · split at hb1
      · split at hb1
        · next hne =>
          injection hb1 with hb1
          subst hb1
          exact ⟨hne, takeWhile_all_true _ _⟩
        · simp at hb1
      · simp at hb1
    · simp at hb1
  · split at h
    · split at h
      · split at h
        · next hne =>
          injection h with h
          subst h
          exact ⟨hne, takeWhile_all_true _ _⟩
        · simp at h
      · split at h
        · next hne =>
          injection h with h
          subst h
          exact ⟨hne, takeWhile_all_true _ _⟩
        · simp at h
    · simp at h

theorem m7At_digits (s : Str) (i : Nat) (d : Str)
    (h : m7At s i = some d) : d ≠ [] ∧ d.all isDig = true := by
  unfold m7At at h
  dsimp only [] at h
  split at h
  · split at h
    · split at h
      · next hne =>
        injection h with h
        subst h
        exact ⟨take3_ne_nil _ hne, take_all_true _ _ _ (takeWhile_all_true _ _)⟩
      · simp at h
    · split at h
      · next hne =>
        injection h with h
        subst h
        exact ⟨take3_ne_nil _ hne, take_all_true _ _ _ (takeWhile_all_true _ _)⟩
      · simp at h
  · simp at h

theorem m6Search_digits (s : Str) (d : Str) (h : m6Search s = some d) :
    d ≠ [] ∧ d.all isDig = true := by
  obtain ⟨i, _, hi⟩ := List.exists_of_findSome?_eq_some h
  exact m6At_digits s i d hi

theorem m7Search_digits (s : Str) (d : Str) (h : m7Search s = some d) :
    d ≠ [] ∧ d.all isDig = true := by
  obtain ⟨i, _, hi⟩ := List.exists_of_findSome?_eq_some h
  exact m7At_digits s i d hi

theorem drop_length_takeWhile (p : Char → Bool) (l : Str) :
    l.drop (l.takeWhile p).length = l.dropWhile p := by
  induction l with
  | nil => simp
  | cons a t ih =>
    by_cases hp : p a = true
    · rw [List.takeWhile_cons_of_pos hp, List.dropWhile_cons_of_pos hp]
      simpa using ih
    · rw [List.takeWhile_cons_of_neg (by simpa using hp),
        List.dropWhile_cons_of_neg (by simpa using hp)]
      simp

theorem takeWhile_of_dropWhile_not_ne (p : Char → Bool) (l : Str)
    (h : l.dropWhile (fun c => !p c) ≠ []) :
    (l.dropWhile (fun c => !p c)).takeWhile p ≠ [] := by
  induction l with
  | nil => simp at h
  | cons a t ih =>
    by_cases hp : p a = true
    · rw [List.dropWhile_cons_of_neg (by simp [hp])] at h ⊢
      rw [List.takeWhile_cons_of_pos hp]
      simp
    · rw [List.dropWhile_cons_of_pos
        (by simp [Bool.not_eq_true] at hp ⊢; exact hp)] at h ⊢
      exact ih h

theorem metaAt_digits (s : Str) (i : Nat) (d : Str) (e : Nat)
    (h : metaAt s i = some (d, e)) : d ≠ [] ∧ d.all isDig = true := by
  unfold metaAt at h
  split at h
  · dsimp only [] at h
    split at h
    · next hcond =>
      simp only [Option.some.injEq, Prod.mk.injEq] at h
      obtain ⟨hd2, _⟩ := h
      subst hd2
      have hdrop := drop_length_takeWhile (fun c => !isDig c)
        (((s.drop i).drop 11).takeWhile (fun c => c ≠ '"'))
      have hne : (((s.drop i).drop 11).takeWhile (fun c => c ≠ '"')).dropWhile
          (fun c => !isDig c) ≠ [] := by
        intro hnil
        rw [hnil] at hdrop
        have hlen : ((((s.drop i).drop 11).takeWhile (fun c => c ≠ '"')).drop
            ((((s.drop i).drop 11).takeWhile (fun c => c ≠ '"')).takeWhile
              (fun c => !isDig c)).length).length = 0 := by
          rw [hdrop]
          simp
        simp only [List.length_drop] at hlen
        omega
      constructor
      · apply take3_ne_nil
        rw [hdrop]
        exact takeWhile_of_dropWhile_not_ne isDig _ hne
      · exact take_all_true _ _ _ (takeWhile_all_true _ _)
    · simp at h
  · simp at h

theorem metaFindall_digits (s : Str) :
    ∀ (fuel i : Nat) (d : Str), d ∈ metaFindall s i fuel →
      d ≠ [] ∧ d.all isDig = true := by
  intro fuel
  induction fuel with
  | zero => intro i d hmem; simp [metaFindall] at hmem
  | succ f ih =>
    intro i d hmem
    rw [metaFindall] at hmem
    split at hmem
    · simp at hmem
    · split at hmem
      · next ds e hma =>
        rcases List.mem_cons.mp hmem with heq | hmem2
        · subst heq
          exact metaAt_digits s i d e hma
        · exact ih e d hmem2
      · exact ih (i + 1) d hmem

theorem metaPick_mem (l : List Str) (d : Str) (h : metaPick l = some d) :
    d ∈ l := by
  induction l with
  | nil => simp [metaPick] at h
  | cons a t ih =>
    rw [metaPick] at h
    split at h
    · injection h with h
      subst h
      exact List.mem_cons_self _ _
    · exact List.mem_cons_of_mem _ (ih h)

theorem methodHtml_digits (render2 : Str → Option Str) (content : Str)
    (d : Str) (h : methodHtml render2 content = some d) :
    d ≠ [] ∧ d.all isDig = true := by
  unfold methodHtml at h
  split at h
  · split at h
    · next d2 henc =>
      injection h with h
      subst h
      exact ffnEncSearch_digits _ _ henc
    · split at h
      · exact ffnSearch_digits _ _ h
      · simp at h
  · simp at h

theorem methodTitle_digits (hd qs ql : Str → Option Str) (content : Str)
    (d : Str) (h : methodTitle hd qs ql content = some d) :
    d ≠ [] ∧ d.all isDig = true := by
  unfold methodTitle at h
  split at h
  · exact ffSearch_digits _ _ h
  · simp at h

/-- Claim C10: every non-`None` identifier returned by
`extract_fast_fact_number` is a non-empty string of decimal digits
(each strategy returns a `\d+` or `\d{1,3}` capture). -/
theorem c10_number_digits (hd qs ql render2 : Str → Option Str)
    (content filePath : Str) (s : Str)
    (h : extract_fast_fact_number hd qs ql render2 content filePath = some s) :
    s ≠ [] ∧ s.all isDig = true := by
  unfold extract_fast_fact_number at h
  split at h
  · next d2 hm =>
    injection h with h
    subst h
    split at hm
    · exact ffSearch_digits _ _ hm
    · simp at hm
  · split at h
    · next d2 hm =>
      injection h with h
      subst h
      exact ffnSearch_digits _ _ hm
    · split at h
      · next d2 hm =>
        injection h with h
        subst h
        exact methodHtml_digits _ _ _ hm
      · split at h
        · next d2 hm =>
          injection h with h
          subst h
          exact methodTitle_digits _ _ _ _ _ hm
        · split at h
          · next d2 hm =>
            injection h with h
            subst h
            exact fastFactUrlSearch_digits _ _ hm
          · split at h
            · next d2 hm =>
              injection h with h
              subst h
              exact fastFactHashSearch_digits _ _ hm
            · split at h
              · next d2 hm =>
                injection h with h
                subst h
                exact m6Search_digits _ _ hm
              · split at h
                · next d2 hm =>
                  injection h with h
                  subst h
                  exact m7Search_digits _ _ hm
                · exact metaFindall_digits (content.take 1000) _ 0 s
                    (metaPick_mem _ _ h)

/-- Witness for C10 at a concrete document: the returned identifier
`42` is a non-empty digit string. -/
theorem c10_number_digits_witness :
    extract_fast_fact_number oracleNone oracleNone oracleNone oracleNone
      contentC10 [] = some ("42".data) ∧
    (("42".data) ≠ ([] : Str) ∧ ("42".data).all isDig = true) :=
  ⟨by decide,
    c10_number_digits oracleNone oracleNone oracleNone oracleNone
      contentC10 [] ("42".data) (by decide)⟩
